import Mathlib

/-!
Shallow embedding of the `langgraph-swarm-py` repository: the handoff-tool
factory (`src/langgraph_swarm/handoff.py`) and the swarm builder/router
(`src/langgraph_swarm/swarm.py`), together with theorems settling the
spec claims about them.
-/

namespace LangGraphSwarm

/-! ### handoff.py: agent-name normalization -/

/-- Python whitespace characters matched by the regex class backslash-s
(ASCII fragment): space, tab, newline, carriage return, vertical tab,
form feed. Used by `WHITESPACE_RE` and by `str.strip()`. -/
def isPyWs (c : Char) : Bool :=
  c = ' ' || c = '\t' || c = '\n' || c = '\r' || c = '\x0B' || c = '\x0C'

/-- Python `str.strip()`: remove leading and trailing whitespace. -/
def pyStrip (l : List Char) : List Char :=
  ((l.dropWhile isPyWs).reverse.dropWhile isPyWs).reverse

/-- Streaming embedding of `WHITESPACE_RE.sub("_", ...)`: each maximal run
of whitespace characters is replaced by a single underscore.  The boolean
argument records whether the previous character was part of a whitespace
run already replaced. -/
def subWs : List Char → Bool → List Char
  | [], _ => []
  | c :: rest, prev =>
    if isPyWs c then
      if prev then subWs rest true else '_' :: subWs rest true
    else c :: subWs rest false

/-- `_normalize_agent_name` from handoff.py:
`WHITESPACE_RE.sub("_", agent_name.strip()).lower()`. -/
def _normalize_agent_name (s : String) : String :=
  String.mk ((subWs (pyStrip s.data) false).map Char.toLower)

/-! ### handoff.py: messages, commands and tools -/

/-- `langchain_core.messages.ToolMessage` (the fields the code sets). -/
structure ToolMessage where
  content : String
  name : String
  tool_call_id : String
deriving DecidableEq

/-- A message in the shared message log.  The handoff tool only ever
constructs `toolMsg` messages; everything else in the log is opaque. -/
inductive Message where
  | toolMsg (m : ToolMessage)
  | other (content : String)
deriving DecidableEq

/-- The injected state dict as the code reads it: a `"messages"` list and
an optionally-present `"active_agent"` key. -/
structure StateDict where
  messages : List Message
  active_agent : Option String
deriving DecidableEq

/-- The `graph` field of a `Command`; the code always uses `Command.PARENT`. -/
inductive CommandGraph where
  | parent
deriving DecidableEq

/-- The `update` dict of the `Command` returned by `handoff_to_agent`. -/
structure CommandUpdate where
  messages : List Message
  active_agent : String
deriving DecidableEq

/-- `langgraph.types.Command` (the fields the code sets). -/
structure Command where
  goto : String
  graph : CommandGraph
  update : CommandUpdate
deriving DecidableEq

/-- A `BaseTool`: name, description, optional metadata dict, and the
behaviour when invoked with injected state and tool-call id. -/
structure BaseTool where
  name : String
  description : String
  metadata : Option (List (String × String))
  invoke : StateDict → String → Command

/-- `METADATA_KEY_HANDOFF_DESTINATION` from handoff.py. -/
def METADATA_KEY_HANDOFF_DESTINATION : String := "__handoff_destination"

/-- `create_handoff_tool` from handoff.py: builds the `transfer_to_...`
tool whose invocation returns a `Command` that jumps to `agent_name` in
the parent graph, appends one `ToolMessage` to the message log, and sets
`active_agent`; the tool's metadata records the handoff destination. -/
def create_handoff_tool (agent_name : String) (description : Option String := none) :
    BaseTool :=
  let name := "transfer_to_" ++ _normalize_agent_name agent_name
  { name := name
    description := description.getD ("向智能体 \x27" ++ agent_name ++ "\x27 请求帮助")
    metadata := some [(METADATA_KEY_HANDOFF_DESTINATION, agent_name)]
    invoke := fun state tool_call_id =>
      { goto := agent_name
        graph := CommandGraph.parent
        update :=
          { messages := state.messages ++
              [Message.toolMsg
                { content := "已成功交接至智能体 " ++ agent_name
                  name := name
                  tool_call_id := tool_call_id }]
            active_agent := agent_name } } }

/-! ### handoff.py: get_handoff_destinations -/

/-- Lookup in a Python dict modelled as an association list. -/
def dictGet {β : Type} (k : String) : List (String × β) → Option β
  | [] => none
  | (k2, v) :: rest => if k = k2 then some v else dictGet k rest

/-- Node data of a compiled graph: either a `ToolNode` (holding its
`tools_by_name` dict) or some other kind of node. -/
inductive NodeData where
  | toolNode (tools_by_name : List (String × BaseTool))
  | otherNode

/-- A `CompiledStateGraph` as the code uses it: its `name` and the nodes
of `agent.get_graph()`. -/
structure CompiledStateGraph where
  name : String
  graph_nodes : List (String × NodeData)

/-- `get_handoff_destinations` from handoff.py: collect the
`__handoff_destination` metadata values of the tools in the agent's tool
node, returning `[]` when that node is absent or is not a `ToolNode`. -/
def get_handoff_destinations (agent : CompiledStateGraph)
    (tool_node_name : String := "tools") : List String :=
  match dictGet tool_node_name agent.graph_nodes with
  | none => []
  | some NodeData.otherNode => []
  | some (NodeData.toolNode tools) =>
    (tools.map Prod.snd).filterMap fun t =>
      match t.metadata with
      | none => none
      | some md => dictGet METADATA_KEY_HANDOFF_DESTINATION md

/-! ### swarm.py: the builder -/

/-- `langgraph.graph.START`. -/
def START : String := "__start__"

/-- The channels/annotations of `SwarmState`: `MessagesState`'s
`messages` plus the added `active_agent` field. -/
def SwarmState_fields : List String := ["messages", "active_agent"]

/-- A conditional edge registered by `add_conditional_edges`. -/
structure CondEdge where
  source : String
  router : StateDict → String
  path_map : List String

/-- A node registered by `builder.add_node(name, agent, destinations)`. -/
structure NodeSpec where
  name : String
  agent : CompiledStateGraph
  destinations : List String

/-- A `StateGraph` builder: its state schema's field names and the nodes
and conditional edges registered so far. -/
structure StateGraph where
  schema_fields : List String
  nodes : List NodeSpec
  conditional_edges : List CondEdge

/-- `builder.add_conditional_edges(source, router, path_map)`. -/
def add_conditional_edges (builder : StateGraph) (source : String)
    (router : StateDict → String) (path_map : List String) : StateGraph :=
  { builder with
    conditional_edges := builder.conditional_edges ++ [⟨source, router, path_map⟩] }

/-- `builder.add_node(name, agent, destinations)`. -/
def add_node (builder : StateGraph) (name : String) (agent : CompiledStateGraph)
    (destinations : List String) : StateGraph :=
  { builder with nodes := builder.nodes ++ [⟨name, agent, destinations⟩] }

/-- `route_to_active_agent` from swarm.py:
`state.get("active_agent", default_active_agent)`. -/
def route_to_active_agent (default_active_agent : String) (state : StateDict) : String :=
  state.active_agent.getD default_active_agent

/-- `add_active_agent_router` from swarm.py.  Raising `ValueError` over a
mutable builder is embedded as a pair: the optional error message and the
builder's final state (unchanged when an error is raised, since both
validations precede `add_conditional_edges`). -/
def add_active_agent_router (builder : StateGraph) (route_to : List String)
    (default_active_agent : String) : Option String × StateGraph :=
  if "active_agent" ∉ builder.schema_fields then
    (some "构建器的 state_schema 中缺少必需的 active_agent 字段", builder)
  else if default_active_agent ∉ route_to then
    (some "默认活跃智能体不在路由列表中", builder)
  else
    (none,
      add_conditional_edges builder START
        (route_to_active_agent default_active_agent) route_to)

/-- `create_swarm` from swarm.py, with the state schema represented by
its annotation field names.  Returns the raised `ValueError` message or
the finished builder. -/
def create_swarm (agents : List CompiledStateGraph) (default_active_agent : String)
    (state_schema_fields : List String := SwarmState_fields) :
    Except String StateGraph :=
  if "active_agent" ∉ state_schema_fields then
    Except.error "state_schema 中缺少必需的 active_agent 字段"
  else
    let builder : StateGraph := ⟨state_schema_fields, [], []⟩
    match add_active_agent_router builder
        (agents.map CompiledStateGraph.name) default_active_agent with
    | (some e, _) => Except.error e
    | (none, b) =>
      Except.ok (agents.foldl
        (fun bb ag => add_node bb ag.name ag (get_handoff_destinations ag "tools")) b)

/-! ### Spec-modelled normalization (for the refinement claim about tool
names).  The spec describes normalization as: strip leading/trailing
whitespace, replace every maximal run of internal whitespace with a
single underscore, lowercase.  Equivalently: split the name into its
maximal whitespace-free words, join them with single underscores, and
lowercase. -/

/-- The maximal whitespace-free words of a character list, in order. -/
def wordsOf : List Char → List (List Char)
  | [] => []
  | c :: rest =>
    if isPyWs c then wordsOf rest
    else (c :: rest.takeWhile (fun x => !isPyWs x)) :: wordsOf (rest.dropWhile (fun x => !isPyWs x))
termination_by l => l.length
decreasing_by
  · simp only [List.length_cons]
    exact Nat.lt_succ_of_le (Nat.le_refl _)
  · simp only [List.length_cons]
    exact Nat.lt_succ_of_le (List.dropWhile_sublist _).length_le

/-- Join words with single underscores. -/
def joinU : List (List Char) → List Char
  | [] => []
  | [w] => w
  | w :: x :: ws => w ++ '_' :: joinU (x :: ws)

/-- Modelled from the spec: the normalized agent name is the lowercased
underscore-joining of the maximal whitespace-free words of the name. -/
def specNormalize (s : String) : String :=
  String.mk ((joinU (wordsOf s.data)).map Char.toLower)

/-- The node spec `create_swarm` registers for one agent. -/
def swarmNodeOf (ag : CompiledStateGraph) : NodeSpec :=
  ⟨ag.name, ag, get_handoff_destinations ag "tools"⟩

/-- A tool that does not carry the handoff-destination metadata key. -/
def noHandoffKey (t : BaseTool) : Prop :=
  match t.metadata with
  | none => True
  | some md => dictGet METADATA_KEY_HANDOFF_DESTINATION md = none

/-- A tool list consisting of the handoff tools for `names` (in order),
interleaved with arbitrary tools that do not carry the
handoff-destination metadata key. -/
inductive HandoffInterleaved : List BaseTool → List String → Prop where
  | nil : HandoffInterleaved [] []
  | handoff (a : String) (d : Option String) (ts : List BaseTool) (ns : List String) :
      HandoffInterleaved ts ns →
      HandoffInterleaved (create_handoff_tool a d :: ts) (a :: ns)
  | other (t : BaseTool) (ts : List BaseTool) (ns : List String) :
      noHandoffKey t → HandoffInterleaved ts ns → HandoffInterleaved (t :: ts) ns

/-! ### Concrete fixtures used by witnesses -/

/-- A tool with no metadata at all. -/
def searchTool : BaseTool :=
  { name := "search"
    description := "a tool without handoff metadata"
    metadata := none
    invoke := fun _ _ => ⟨"", CommandGraph.parent, ⟨[], ""⟩⟩ }

/-- An agent whose tool node holds handoff tools for bob and carol plus
an unrelated tool. -/
def wAgentTools : CompiledStateGraph :=
  ⟨"alice",
    [("tools", NodeData.toolNode
      [("transfer_to_bob", create_handoff_tool "bob" none),
       ("search", searchTool),
       ("transfer_to_carol", create_handoff_tool "carol" none)])]⟩

/-- An agent with no tool node. -/
def wAgentNoTools : CompiledStateGraph := ⟨"alice", []⟩

/-- An agent whose node named tools is not a ToolNode. -/
def wAgentOtherNode : CompiledStateGraph := ⟨"alice", [("tools", NodeData.otherNode)]⟩

/-- A builder over the swarm state schema with no nodes or edges. -/
def routerB0 : StateGraph := ⟨SwarmState_fields, [], []⟩

/-- A builder whose state schema lacks the active_agent field. -/
def routerB1 : StateGraph := ⟨["messages"], [], []⟩

/-- Whether a character list starts with a whitespace character. -/
def leadWs : List Char → Bool
  | [] => false
  | c :: _ => isPyWs c

/-- A character list with no trailing whitespace. -/
def noTrailWs (l : List Char) : Prop :=
  ∀ c, l.getLast? = some c → isPyWs c = false

/-! ### Lemmas about normalization -/

theorem noTrailWs_tail {c : Char} {rest : List Char} (h : noTrailWs (c :: rest)) :
    noTrailWs rest := by
  intro d hd
  apply h d
  cases rest with
  | nil => simp at hd
  | cons e r => rw [List.getLast?_cons_cons]; exact hd

theorem noTrailWs_cons_ws_ne_nil {c : Char} {rest : List Char}
    (hws : isPyWs c = true) (h : noTrailWs (c :: rest)) : rest ≠ [] := by
  intro hrest
  subst hrest
  have hcf := h c (by simp)
  rw [hcf] at hws
  exact Bool.noConfusion hws

theorem wordsOf_nil : wordsOf [] = [] := by
  simp [wordsOf]

theorem wordsOf_cons_ws {c : Char} {rest : List Char} (h : isPyWs c = true) :
    wordsOf (c :: rest) = wordsOf rest := by
  rw [wordsOf]
  simp [h]

theorem wordsOf_cons_not {c : Char} {rest : List Char} (h : isPyWs c = false) :
    wordsOf (c :: rest) =
      (c :: rest.takeWhile (fun x => !isPyWs x)) ::
        wordsOf (rest.dropWhile (fun x => !isPyWs x)) := by
  rw [wordsOf]
  simp [h]

theorem wordsOf_allWs : ∀ {l : List Char}, (∀ c ∈ l, isPyWs c = true) → wordsOf l = []
  | [], _ => wordsOf_nil
  | c :: rest, h => by
    rw [wordsOf_cons_ws (h c (List.mem_cons_self c rest))]
    exact wordsOf_allWs fun d hd => h d (List.mem_cons_of_mem c hd)

theorem wordsOf_ne_nil : ∀ {l : List Char}, noTrailWs l → l ≠ [] → wordsOf l ≠ []
  | [], _, hne => absurd rfl hne
  | c :: rest, h, _ => by
    by_cases hc : isPyWs c
    · have hrest : rest ≠ [] := noTrailWs_cons_ws_ne_nil hc h
      rw [wordsOf_cons_ws hc]
      exact wordsOf_ne_nil (noTrailWs_tail h) hrest
    · rw [wordsOf_cons_not (Bool.eq_false_iff.mpr hc)]
      simp

theorem wordsOf_dropWhile (l : List Char) :
    wordsOf (l.dropWhile isPyWs) = wordsOf l := by
  induction l with
  | nil => simp
  | cons c rest ih =>
    by_cases h : isPyWs c
    · rw [List.dropWhile_cons_of_pos h, ih, wordsOf_cons_ws h]
    · rw [List.dropWhile_cons_of_neg h]

theorem takeWhile_allWs_nil {w : List Char} (hw : ∀ c ∈ w, isPyWs c = true) :
    w.takeWhile (fun x => !isPyWs x) = [] := by
  cases w with
  | nil => rfl
  | cons d r =>
    apply List.takeWhile_cons_of_neg
    simp [hw d (List.mem_cons_self d r)]

theorem dropWhile_allWs_self {w : List Char} (hw : ∀ c ∈ w, isPyWs c = true) :
    w.dropWhile (fun x => !isPyWs x) = w := by
  cases w with
  | nil => rfl
  | cons d r =>
    apply List.dropWhile_cons_of_neg
    simp [hw d (List.mem_cons_self d r)]

theorem wordsOf_append_allWs_aux : ∀ (n : Nat) (m w : List Char), m.length ≤ n →
    (∀ c ∈ w, isPyWs c = true) → wordsOf (m ++ w) = wordsOf m := by
  intro n
  induction n with
  | zero =>
    intro m w hm hw
    have hmn : m = [] := List.length_eq_zero.mp (Nat.le_zero.mp hm)
    subst hmn
    rw [List.nil_append, wordsOf_allWs hw, wordsOf_nil]
  | succ n ih =>
    intro m w hm hw
    match m with
    | [] => rw [List.nil_append, wordsOf_allWs hw, wordsOf_nil]
    | c :: rest =>
      have hrlen : rest.length ≤ n := Nat.le_of_succ_le_succ hm
      by_cases hc : isPyWs c
      · rw [List.cons_append, wordsOf_cons_ws hc, wordsOf_cons_ws hc]
        exact ih rest w hrlen hw
      · have hcf : isPyWs c = false := Bool.eq_false_iff.mpr hc
        rw [List.cons_append, wordsOf_cons_not hcf, wordsOf_cons_not hcf]
        by_cases hall : ∀ a ∈ rest, (!isPyWs a) = true
        · rw [List.takeWhile_append_of_pos hall, List.dropWhile_append_of_pos hall,
            takeWhile_allWs_nil hw, dropWhile_allWs_self hw, List.append_nil,
            List.takeWhile_eq_self_iff.mpr hall, List.dropWhile_eq_nil_iff.mpr hall,
            wordsOf_allWs hw, wordsOf_nil]
        · have hdrop : rest.dropWhile (fun x => !isPyWs x) ≠ [] := by
            intro hd
            exact hall (List.dropWhile_eq_nil_iff.mp hd)
          have htake : ¬ ((rest.takeWhile (fun x => !isPyWs x)).length = rest.length) := by
            intro hlen
            apply hall
            intro a ha
            have heq : rest.takeWhile (fun x => !isPyWs x) = rest :=
              (List.takeWhile_sublist _).eq_of_length hlen
            have ha2 : a ∈ rest.takeWhile (fun x => !isPyWs x) := by
              rw [heq]; exact ha
            have ha3 := List.mem_takeWhile_imp ha2
            exact ha3
          rw [List.takeWhile_append, if_neg htake, List.dropWhile_append]
          rw [if_neg (by simpa [List.isEmpty_iff] using hdrop)]
          have hdlen : (rest.dropWhile (fun x => !isPyWs x)).length ≤ n :=
            Nat.le_trans (List.dropWhile_sublist _).length_le hrlen
          rw [ih _ w hdlen hw]

theorem wordsOf_append_allWs (m w : List Char) (hw : ∀ c ∈ w, isPyWs c = true) :
    wordsOf (m ++ w) = wordsOf m :=
  wordsOf_append_allWs_aux m.length m w (Nat.le_refl _) hw

theorem pyStrip_decomp (l : List Char) : l.dropWhile isPyWs =
    pyStrip l ++ ((l.dropWhile isPyWs).reverse.takeWhile isPyWs).reverse := by
  have h1 : (l.dropWhile isPyWs).reverse.takeWhile isPyWs ++
      (l.dropWhile isPyWs).reverse.dropWhile isPyWs = (l.dropWhile isPyWs).reverse :=
    List.takeWhile_append_dropWhile isPyWs _
  calc l.dropWhile isPyWs = (l.dropWhile isPyWs).reverse.reverse := by
        rw [List.reverse_reverse]
    _ = ((l.dropWhile isPyWs).reverse.takeWhile isPyWs ++
          (l.dropWhile isPyWs).reverse.dropWhile isPyWs).reverse := by rw [h1]
    _ = pyStrip l ++ ((l.dropWhile isPyWs).reverse.takeWhile isPyWs).reverse := by
        rw [List.reverse_append]; rfl

theorem wordsOf_pyStrip (l : List Char) : wordsOf (pyStrip l) = wordsOf l := by
  have hws : ∀ c ∈ ((l.dropWhile isPyWs).reverse.takeWhile isPyWs).reverse,
      isPyWs c = true := by
    intro c hc
    rw [List.mem_reverse] at hc
    exact List.mem_takeWhile_imp hc
  calc wordsOf (pyStrip l)
      = wordsOf (pyStrip l ++ ((l.dropWhile isPyWs).reverse.takeWhile isPyWs).reverse) :=
        (wordsOf_append_allWs _ _ hws).symm
    _ = wordsOf (l.dropWhile isPyWs) := by rw [← pyStrip_decomp l]
    _ = wordsOf l := wordsOf_dropWhile l

theorem leadWs_pyStrip (l : List Char) : leadWs (pyStrip l) = false := by
  cases hps : pyStrip l with
  | nil => rfl
  | cons c r =>
    show isPyWs c = false
    have hdw := List.head?_dropWhile_not isPyWs l
    have hhead : (l.dropWhile isPyWs).head? = some c := by
      rw [pyStrip_decomp l, hps]
      rfl
    rw [hhead] at hdw
    exact hdw

theorem noTrailWs_pyStrip (l : List Char) : noTrailWs (pyStrip l) := by
  intro c hc
  have hdw := List.head?_dropWhile_not isPyWs ((l.dropWhile isPyWs).reverse)
  have hg : (pyStrip l).getLast? =
      ((l.dropWhile isPyWs).reverse.dropWhile isPyWs).head? := by
    show (((l.dropWhile isPyWs).reverse.dropWhile isPyWs).reverse).getLast? = _
    rw [List.getLast?_reverse]
  rw [hg] at hc
  rw [hc] at hdw
  exact hdw

theorem joinU_cons_head (a : Char) (w : List Char) (ws1 : List (List Char)) :
    joinU ((a :: w) :: ws1) = a :: joinU (w :: ws1) := by
  cases ws1 with
  | nil => rfl
  | cons y ys => simp [joinU]

theorem subWs_eq_joinU_wordsOf : ∀ (l : List Char), noTrailWs l →
    subWs l true = joinU (wordsOf l) ∧
    subWs l false =
      (if leadWs l then '_' :: joinU (wordsOf l) else joinU (wordsOf l)) := by
  intro l
  induction l with
  | nil =>
    intro _
    rw [wordsOf_nil]
    exact ⟨rfl, rfl⟩
  | cons c rest ih =>
    intro h
    by_cases hc : isPyWs c
    · have hcb : isPyWs c = true := hc
      have hub := ih (noTrailWs_tail h)
      have hlw : leadWs (c :: rest) = true := hcb
      constructor
      · rw [wordsOf_cons_ws hcb]
        have hs : subWs (c :: rest) true = subWs rest true := by
          simp [subWs, hcb]
        rw [hs]
        exact hub.1
      · rw [wordsOf_cons_ws hcb, hlw]
        have hs : subWs (c :: rest) false = '_' :: subWs rest true := by
          simp [subWs, hcb]
        rw [hs, hub.1]
        simp
    · have hcf : isPyWs c = false := Bool.eq_false_iff.mpr hc
      have hlw : leadWs (c :: rest) = false := hcf
      have key : c :: subWs rest false = joinU (wordsOf (c :: rest)) := by
        rw [wordsOf_cons_not hcf]
        cases rest with
        | nil =>
          rw [List.takeWhile_nil, List.dropWhile_nil, wordsOf_nil]
          rfl
        | cons d r =>
          have hub := ih (noTrailWs_tail h)
          by_cases hd : isPyWs d
          · have hdb : isPyWs d = true := hd
            have h1 : (d :: r).takeWhile (fun x => !isPyWs x) = [] := by
              apply List.takeWhile_cons_of_neg
              simp [hdb]
            have h2 : (d :: r).dropWhile (fun x => !isPyWs x) = d :: r := by
              apply List.dropWhile_cons_of_neg
              simp [hdb]
            rw [h1, h2]
            have hwne : wordsOf (d :: r) ≠ [] :=
              wordsOf_ne_nil (noTrailWs_tail h) (by simp)
            obtain ⟨x, xs, hxs⟩ := List.exists_cons_of_ne_nil hwne
            have hb := hub.2
            rw [show leadWs (d :: r) = true from hdb] at hb
            simp only [if_true] at hb
            rw [hb, hxs]
            simp [joinU]
          · have hdf : isPyWs d = false := Bool.eq_false_iff.mpr hd
            have h1 : (d :: r).takeWhile (fun x => !isPyWs x) =
                d :: r.takeWhile (fun x => !isPyWs x) := by
              apply List.takeWhile_cons_of_pos
              simp [hdf]
            have h2 : (d :: r).dropWhile (fun x => !isPyWs x) =
                r.dropWhile (fun x => !isPyWs x) := by
              apply List.dropWhile_cons_of_pos
              simp [hdf]
            rw [h1, h2]
            have hb := hub.2
            rw [show leadWs (d :: r) = false from hdf] at hb
            simp only [Bool.false_eq_true, if_false] at hb
            rw [wordsOf_cons_not hdf] at hb
            rw [joinU_cons_head, hb]
      constructor
      · have hs : subWs (c :: rest) true = c :: subWs rest false := by
          simp [subWs, hcf]
        rw [hs, key]
      · have hs : subWs (c :: rest) false = c :: subWs rest false := by
          simp [subWs, hcf]
        rw [hs, hlw, key]
        simp

theorem subWs_pyStrip_eq_joinU (l : List Char) :
    subWs (pyStrip l) false = joinU (wordsOf l) := by
  have h := (subWs_eq_joinU_wordsOf (pyStrip l) (noTrailWs_pyStrip l)).2
  rw [leadWs_pyStrip l] at h
  simp only [Bool.false_eq_true, if_false] at h
  rw [h, wordsOf_pyStrip]

theorem normalize_agent_name_eq_spec (s : String) :
    _normalize_agent_name s = specNormalize s := by
  unfold _normalize_agent_name specNormalize
  rw [subWs_pyStrip_eq_joinU]

/-! ### Lemmas about the swarm builder and destination collection -/

theorem foldl_add_node (ags : List CompiledStateGraph) (b : StateGraph) :
    ags.foldl (fun bb ag => add_node bb ag.name ag (get_handoff_destinations ag "tools")) b =
      { b with nodes := b.nodes ++ ags.map swarmNodeOf } := by
  induction ags generalizing b with
  | nil => simp
  | cons a rest ih =>
    rw [List.foldl_cons, ih]
    simp [add_node, swarmNodeOf]

theorem filterMap_handoff_interleaved {ts : List BaseTool} {ns : List String}
    (h : HandoffInterleaved ts ns) :
    ts.filterMap (fun t =>
      match t.metadata with
      | none => none
      | some md => dictGet METADATA_KEY_HANDOFF_DESTINATION md) = ns := by
  induction h with
  | nil => rfl
  | handoff a d ts2 ns2 h2 ih =>
    rw [List.filterMap_cons]
    have hx : (match (create_handoff_tool a d).metadata with
        | none => none
        | some md => dictGet METADATA_KEY_HANDOFF_DESTINATION md) = some a := by
      show dictGet METADATA_KEY_HANDOFF_DESTINATION
        [(METADATA_KEY_HANDOFF_DESTINATION, a)] = some a
      simp [dictGet]
    rw [hx, ih]
  | other t ts2 ns2 hk h2 ih =>
    rw [List.filterMap_cons]
    have hx : (match t.metadata with
        | none => none
        | some md => dictGet METADATA_KEY_HANDOFF_DESTINATION md) = none := by
      unfold noHandoffKey at hk
      cases hmd : t.metadata with
      | none => simp [hmd]
      | some md =>
        rw [hmd] at hk
        simp [hmd]
        exact hk
    rw [hx, ih]

/-! ### Claim theorems -/

/-- C1: for every agent name, injected state and tool-call id, invoking the
tool produced by `create_handoff_tool` returns a `Command` whose `goto` equals
the agent name and whose update's messages equal the state's messages with
exactly one `ToolMessage` appended at the end. -/
theorem handoff_invoke_goto_and_appends_one_tool_message (agent_name : String)
    (description : Option String) (state : StateDict) (tool_call_id : String) :
    ((create_handoff_tool agent_name description).invoke state tool_call_id).goto =
      agent_name ∧
    ∃ tm : ToolMessage,
      ((create_handoff_tool agent_name description).invoke state
          tool_call_id).update.messages = state.messages ++ [Message.toolMsg tm] :=
  ⟨rfl, ⟨_, rfl⟩⟩

/-- C2: the routing function installed by `add_active_agent_router` returns the
state's `active_agent` value when that key is present and the default when it
is absent. -/
theorem route_to_active_agent_present_absent (default_active_agent : String)
    (msgs : List Message) (a : String) :
    route_to_active_agent default_active_agent ⟨msgs, some a⟩ = a ∧
    route_to_active_agent default_active_agent ⟨msgs, none⟩ = default_active_agent :=
  ⟨rfl, rfl⟩

/-- C3: `add_active_agent_router` raises `ValueError` iff the builder's schema
lacks the `active_agent` field or the default agent is not in `route_to`;
otherwise it returns the builder with the conditional entry-edge installed. -/
theorem add_active_agent_router_valueerror_iff (builder : StateGraph)
    (route_to : List String) (default_active_agent : String) :
    ((add_active_agent_router builder route_to default_active_agent).1.isSome ↔
      ("active_agent" ∉ builder.schema_fields ∨ default_active_agent ∉ route_to)) ∧
    ((add_active_agent_router builder route_to default_active_agent).1 = none →
      (add_active_agent_router builder route_to default_active_agent).2 =
        add_conditional_edges builder START
          (route_to_active_agent default_active_agent) route_to) := by
  unfold add_active_agent_router
  by_cases h1 : "active_agent" ∈ builder.schema_fields
  · by_cases h2 : default_active_agent ∈ route_to
    · simp [h1, h2]
    · simp [h1, h2]
  · simp [h1]

/-- C3 witness: on a builder with the swarm schema and a valid default, no
error is raised and the conditional entry-edge is installed. -/
theorem add_active_agent_router_valueerror_iff_witness :
    (add_active_agent_router routerB0 ["alice"] "alice").2 =
      add_conditional_edges routerB0 START (route_to_active_agent "alice") ["alice"] :=
  (add_active_agent_router_valueerror_iff routerB0 ["alice"] "alice").2 (by decide)

/-- C4: the tool built by `create_handoff_tool` is named `transfer_to_`
followed by the normalized agent name, where normalization strips
leading/trailing whitespace, collapses every maximal internal whitespace run
to one underscore, and lowercases; determinism is immediate since the name is
a function of the agent name. -/
theorem create_handoff_tool_name_normalized (agent_name : String)
    (description : Option String) :
    (create_handoff_tool agent_name description).name =
      "transfer_to_" ++ specNormalize agent_name := by
  show "transfer_to_" ++ _normalize_agent_name agent_name = _
  rw [normalize_agent_name_eq_spec]

/-- C5: every invocation of the handoff tool sets the update's `active_agent`
to the un-normalized agent name passed to the factory. -/
theorem handoff_invoke_sets_active_agent (agent_name : String)
    (description : Option String) (state : StateDict) (tool_call_id : String) :
    ((create_handoff_tool agent_name description).invoke state
      tool_call_id).update.active_agent = agent_name :=
  rfl

/-- C6: `create_swarm` raises `ValueError` when the state schema's annotations
lack the `active_agent` field. -/
theorem create_swarm_missing_active_agent (agents : List CompiledStateGraph)
    (default_active_agent : String) (fields : List String)
    (h : "active_agent" ∉ fields) :
    ∃ msg, create_swarm agents default_active_agent fields = Except.error msg := by
  refine ⟨"state_schema 中缺少必需的 active_agent 字段", ?_⟩
  unfold create_swarm
  rw [if_pos h]

/-- C6 witness: a schema with only a messages field makes `create_swarm` raise. -/
theorem create_swarm_missing_active_agent_witness :
    ∃ msg, create_swarm [] "alice" ["messages"] = Except.error msg :=
  create_swarm_missing_active_agent [] "alice" ["messages"] (by decide)

/-- C7: for a non-empty agent list, a schema containing `active_agent` and a
default among the agent names, `create_swarm` returns the builder with one
node per agent (named `agent.name`, with that agent's handoff destinations)
plus the active-agent router installed on the entry edge. -/
theorem create_swarm_builds_graph (agents : List CompiledStateGraph)
    (default_active_agent : String) (fields : List String)
    (_hne : agents ≠ [])
    (hfield : "active_agent" ∈ fields)
    (hdef : default_active_agent ∈ agents.map CompiledStateGraph.name) :
    create_swarm agents default_active_agent fields =
      Except.ok
        { schema_fields := fields
          nodes := agents.map swarmNodeOf
          conditional_edges :=
            [⟨START, route_to_active_agent default_active_agent,
              agents.map CompiledStateGraph.name⟩] } := by
  unfold create_swarm add_active_agent_router
  simp only [if_neg (not_not_intro hfield), if_neg (not_not_intro hdef)]
  rw [foldl_add_node]
  simp [add_conditional_edges]

/-- C7 witness: a single agent swarm with itself as default. -/
theorem create_swarm_builds_graph_witness :
    create_swarm [wAgentNoTools] "alice" SwarmState_fields =
      Except.ok
        { schema_fields := SwarmState_fields
          nodes := List.map swarmNodeOf [wAgentNoTools]
          conditional_edges :=
            [⟨START, route_to_active_agent "alice",
              List.map CompiledStateGraph.name [wAgentNoTools]⟩] } :=
  create_swarm_builds_graph [wAgentNoTools] "alice" SwarmState_fields
    (by simp) (by decide) (by simp [wAgentNoTools])

/-- C8: a tool node holding the handoff tools for a list of agent names, plus
arbitrary tools without the handoff metadata key, makes
`get_handoff_destinations` return exactly that list of names. -/
theorem get_handoff_destinations_roundtrip (agent : CompiledStateGraph)
    (tools : List (String × BaseTool)) (ns : List String)
    (hnode : dictGet "tools" agent.graph_nodes = some (NodeData.toolNode tools))
    (hint : HandoffInterleaved (tools.map Prod.snd) ns) :
    get_handoff_destinations agent "tools" = ns := by
  unfold get_handoff_destinations
  rw [hnode]
  exact filterMap_handoff_interleaved hint

/-- C8 witness: an agent with handoff tools for bob and carol and one
unrelated tool yields exactly those two destinations. -/
theorem get_handoff_destinations_roundtrip_witness :
    get_handoff_destinations wAgentTools "tools" = ["bob", "carol"] := by
  apply get_handoff_destinations_roundtrip wAgentTools
    [("transfer_to_bob", create_handoff_tool "bob" none),
     ("search", searchTool),
     ("transfer_to_carol", create_handoff_tool "carol" none)]
    ["bob", "carol"]
  · simp [wAgentTools, dictGet]
  · exact HandoffInterleaved.handoff "bob" none _ _
      (HandoffInterleaved.other searchTool _ _ trivial
        (HandoffInterleaved.handoff "carol" none _ _ HandoffInterleaved.nil))

/-- C9: `get_handoff_destinations` returns the empty list (rather than
raising) when the tool node is absent or its data is not a `ToolNode`. -/
theorem get_handoff_destinations_total (agent : CompiledStateGraph) (nm : String) :
    (dictGet nm agent.graph_nodes = none → get_handoff_destinations agent nm = []) ∧
    (dictGet nm agent.graph_nodes = some NodeData.otherNode →
      get_handoff_destinations agent nm = []) := by
  constructor <;> intro h <;> unfold get_handoff_destinations <;> rw [h]

/-- C9 witness: both failure shapes on concrete agents return the empty list. -/
theorem get_handoff_destinations_total_witness :
    get_handoff_destinations wAgentNoTools "tools" = [] ∧
    get_handoff_destinations wAgentOtherNode "tools" = [] :=
  ⟨(get_handoff_destinations_total wAgentNoTools "tools").1 rfl,
   (get_handoff_destinations_total wAgentOtherNode "tools").2 (by simp [wAgentOtherNode, dictGet])⟩

/-- C10: when `add_active_agent_router` raises `ValueError`, the builder is
returned unchanged: both validations happen before `add_conditional_edges`. -/
theorem add_active_agent_router_atomic (builder : StateGraph)
    (route_to : List String) (default_active_agent : String)
    (h : (add_active_agent_router builder route_to default_active_agent).1.isSome = true) :
    (add_active_agent_router builder route_to default_active_agent).2 = builder := by
  unfold add_active_agent_router at h ⊢
  by_cases h1 : "active_agent" ∈ builder.schema_fields
  · by_cases h2 : default_active_agent ∈ route_to
    · simp [h1, h2] at h
    · simp [h1, h2]
  · simp [h1]

/-- C10 witness: with a schema missing `active_agent` the raising call leaves
the builder unchanged. -/
theorem add_active_agent_router_atomic_witness :
    (add_active_agent_router routerB1 ["alice"] "alice").2 = routerB1 :=
  add_active_agent_router_atomic routerB1 ["alice"] "alice" (by decide)

end LangGraphSwarm
